import Mathlib

/-!
# DataConcentrator: a shallow embedding of `DataConcentrator.cpp`

The program has two producers that push `DataSample`s into two
`ThreadSafeQueue`s and one concentrator that pops from both queues and prints
the more reliable sample.

Modelling conventions.

* `int` is a mathematical integer wrapped to 32 bits (`wrap32`) where the
  source does arithmetic on it.
* `double reliability` is modelled by the rational number that the double
  denotes.  Comparison of such values is exact.  NaN is outside the model:
  `std::priority_queue` requires its comparison to be a strict weak order,
  which NaN breaks.  The division by `10.0` in `produceData` is taken exactly.
* `std::priority_queue<T>` is modelled by its contract.  The container is the
  list of resident items in insertion order (`push_back`), `top` is the first
  item that no other item exceeds under `std::less<T>`, and `pop` removes that
  item.  Which of several equal items is on top is not fixed by the C++
  standard; the model picks the one pushed first.
* The mutex and the condition variable are not modelled: every operation is
  one atomic step of a sequential run.
* `std::cout` is a list of `Line`s; the sleeps are not modelled.
-/

namespace DataConcentrator

/-! ## DataSample -/

/-- Sample carrying an `int value` and a `double reliability`. -/
structure DataSample where
  value : Int
  reliability : ℚ
  deriving DecidableEq

/-- Three-way comparison `operator<=>` of `DataSample`: it compares the
reliabilities and nothing else. -/
def DataSample.spaceship (a other : DataSample) : Ordering :=
  if a.reliability < other.reliability then Ordering.lt
  else if a.reliability = other.reliability then Ordering.eq
  else Ordering.gt

/-- Comparison `a < b` as `std::less<DataSample>` evaluates it: the compiler
rewrites it to `(a <=> b) < 0`. -/
def DataSample.less (a b : DataSample) : Bool :=
  a.spaceship b == Ordering.lt

/-! ## std::priority_queue (contract model) -/

/-- Member `top()` of `std::priority_queue<DataSample>` on the non-empty
container `best :: rest`: a scan in which the candidate `best` is replaced by
a later item only when `best < item` under `std::less`. -/
def pqTop (best : DataSample) : List DataSample → DataSample
  | [] => best
  | x :: xs => if best.less x then pqTop x xs else pqTop best xs

/-- Member `pop()` of `std::priority_queue<DataSample>` on the non-empty
container `x :: xs`: the top item is removed, the other items stay. -/
def pqPop (x : DataSample) (xs : List DataSample) : List DataSample :=
  (x :: xs).erase (pqTop x xs)

/-! ## ThreadSafeQueue -/

/-- Class `ThreadSafeQueue<DataSample>`: the priority queue it guards. -/
structure ThreadSafeQueue where
  queue : List DataSample
  deriving DecidableEq

/-- A freshly constructed queue, as `main` declares `queue1` and `queue2`. -/
def ThreadSafeQueue.fresh : ThreadSafeQueue := ⟨[]⟩

/-- Method `push`: `queue.push(item)`. -/
def ThreadSafeQueue.push (q : ThreadSafeQueue) (item : DataSample) : ThreadSafeQueue :=
  ⟨q.queue ++ [item]⟩

/-- Method `pop`: `std::nullopt` when `queue.empty()`, otherwise
`item = queue.top(); queue.pop(); return item`.  The result is the returned
optional and the queue after the call. -/
def ThreadSafeQueue.pop (q : ThreadSafeQueue) : Option DataSample × ThreadSafeQueue :=
  match q.queue with
  | [] => (none, q)
  | x :: xs => (some (pqTop x xs), ⟨pqPop x xs⟩)

/-- Method `empty`: `queue.empty()`. -/
def ThreadSafeQueue.empty (q : ThreadSafeQueue) : Bool :=
  q.queue.isEmpty

/-- Number of resident items. -/
def ThreadSafeQueue.size (q : ThreadSafeQueue) : Nat :=
  q.queue.length

/-- Push a list of samples, first to last. -/
def pushAll (q : ThreadSafeQueue) (items : List DataSample) : ThreadSafeQueue :=
  items.foldl ThreadSafeQueue.push q

/-- One call on a queue. -/
inductive QueueOp where
  | push (item : DataSample)
  | pop
  | empty
  deriving DecidableEq

/-- True on a call of push. -/
def QueueOp.isPush : QueueOp → Bool
  | QueueOp.push _ => true
  | _ => false

/-- Trace of a sequential run of calls on one queue: the queue, the items
pushed so far and the items that pops have returned so far, oldest first. -/
structure QueueRun where
  q : ThreadSafeQueue
  pushed : List DataSample
  returned : List DataSample
  deriving DecidableEq

/-- Apply one call and record it in the trace. -/
def QueueRun.step (r : QueueRun) : QueueOp → QueueRun
  | QueueOp.push item => { r with q := r.q.push item, pushed := r.pushed ++ [item] }
  | QueueOp.pop =>
    match r.q.pop with
    | (some item, q1) => { r with q := q1, returned := r.returned ++ [item] }
    | (none, q1) => { r with q := q1 }
  | QueueOp.empty => r

/-- Run a sequence of calls on an initially empty queue. -/
def runQueueOps (ops : List QueueOp) : QueueRun :=
  ops.foldl QueueRun.step ⟨ThreadSafeQueue.fresh, [], []⟩

/-- The resident items together with the returned items are the pushed items. -/
def QueueRun.Balanced (r : QueueRun) : Prop :=
  List.Perm (r.q.queue ++ r.returned) r.pushed

/-! ## produceData -/

/-- Wrap an integer to the range of a 32-bit `int`. -/
def wrap32 (n : Int) : Int :=
  (n + 2147483648) % 4294967296 - 2147483648

/-- Addition of two `int`s. -/
def add32 (a b : Int) : Int := wrap32 (a + b)

/-- Multiplication of two `int`s. -/
def mul32 (a b : Int) : Int := wrap32 (a * b)

/-- Sample built in iteration `i` of the loop of `produceData`:
`DataSample(i + 1 + threadId * 10, (threadId + 1) * (i + 1) / 10.0)`. -/
def produceSample (threadId i : Int) : DataSample :=
  { value := add32 (add32 i 1) (mul32 threadId 10)
    reliability := ((mul32 (add32 threadId 1) (add32 i 1) : Int) : ℚ) / 10 }

/-- Function `produceData`: the loop `for (int i = 0; i < 10; ++i)` pushes one
sample per iteration. -/
def produceData (queue : ThreadSafeQueue) (threadId : Int) : ThreadSafeQueue :=
  (List.range 10).foldl
    (fun (q : ThreadSafeQueue) (i : Nat) => q.push (produceSample threadId (i : Int))) queue

/-- Thread `producer1` of `main`: `produceData(queue1, 1)`. -/
def mainProducer1 (queue1 : ThreadSafeQueue) : ThreadSafeQueue :=
  produceData queue1 1

/-- Thread `producer2` of `main`: `produceData(queue2, 2)`. -/
def mainProducer2 (queue2 : ThreadSafeQueue) : ThreadSafeQueue :=
  produceData queue2 2

/-! ## dataConcentrator -/

/-- One line written to `std::cout`: either
`Processing sample from Queue<source>: value=..., reliability=...`
or `Data concentrator gracefully stopped.` -/
inductive Line where
  | processing (source : Nat) (sample : DataSample)
  | stopped
  deriving DecidableEq

/-- True on a `Processing sample` line. -/
def Line.isProcessing : Line → Bool
  | Line.processing _ _ => true
  | Line.stopped => false

/-- The `if`/`else if` chain of the loop body: the line printed for the two
pop results, if any. -/
def selectLine (sample1 sample2 : Option DataSample) : Option Line :=
  match sample1, sample2 with
  | some s1, some s2 =>
    if s1.reliability ≥ s2.reliability then some (Line.processing 1 s1)
    else some (Line.processing 2 s2)
  | some s1, none => some (Line.processing 1 s1)
  | none, some s2 => some (Line.processing 2 s2)
  | none, none => none

/-- What the concentrator works on: the two queues and the output so far. -/
structure Concentrator where
  queue1 : ThreadSafeQueue
  queue2 : ThreadSafeQueue
  out : List Line
  deriving DecidableEq

/-- One execution of the loop body: pop `queue1`, pop `queue2`, print. -/
def loopBody (s : Concentrator) : Concentrator :=
  let r1 := s.queue1.pop
  let r2 := s.queue2.pop
  { queue1 := r1.2
    queue2 := r2.2
    out := s.out ++ (selectLine r1.1 r2.1).toList }

/-- What one loop iteration prints. -/
def iterationLine (s : Concentrator) : Option Line :=
  selectLine s.queue1.pop.1 s.queue2.pop.1

/-- Function `dataConcentrator`.  The list holds the values that `running`
yields at the successive evaluations of the loop condition.  The result is
the state reached and whether the function has returned; it has not when the
readings run out while the flag still reads `true`. -/
def dataConcentrator : List Bool → Concentrator → Concentrator × Bool
  | [], s => (s, false)
  | true :: flags, s => dataConcentrator flags (loopBody s)
  | false :: _, s => ({ s with out := s.out ++ [Line.stopped] }, true)

/-- Number of `Processing sample` lines in an output. -/
def processingLines (out : List Line) : Nat :=
  (out.filter Line.isProcessing).length

/-- Number of `gracefully stopped` lines in an output. -/
def stoppedLines (out : List Line) : Nat :=
  out.count Line.stopped

/-- One step of a sequential run of the pipeline. -/
inductive PipeOp where
  | push1 (item : DataSample)
  | push2 (item : DataSample)
  | iterate
  deriving DecidableEq

/-- Trace of a sequential run of the pipeline: the concentrator state, the
number of pushes so far, and the number of iterations so far that found both
queues non-empty. -/
structure PipeRun where
  c : Concentrator
  pushed : Nat
  bothFound : Nat
  deriving DecidableEq

/-- Apply one step and record it in the trace. -/
def PipeRun.step (r : PipeRun) : PipeOp → PipeRun
  | PipeOp.push1 item =>
    { r with c := { r.c with queue1 := r.c.queue1.push item }, pushed := r.pushed + 1 }
  | PipeOp.push2 item =>
    { r with c := { r.c with queue2 := r.c.queue2.push item }, pushed := r.pushed + 1 }
  | PipeOp.iterate =>
    { r with
      c := loopBody r.c
      bothFound := r.bothFound + (if r.c.queue1.empty || r.c.queue2.empty then 0 else 1) }

/-- Run a sequence of steps from two empty queues and no output. -/
def runPipeOps (ops : List PipeOp) : PipeRun :=
  ops.foldl PipeRun.step ⟨⟨ThreadSafeQueue.fresh, ThreadSafeQueue.fresh, []⟩, 0, 0⟩

/-- The sample that a step pushes to `queue1`, if it is such a push. -/
def PipeOp.pushed1 : PipeOp → Option DataSample
  | PipeOp.push1 item => some item
  | _ => none

/-- The sample that a step pushes to `queue2`, if it is such a push. -/
def PipeOp.pushed2 : PipeOp → Option DataSample
  | PipeOp.push2 item => some item
  | _ => none

/-- The samples pushed to `queue1` in a run, in order. -/
def pushes1 (ops : List PipeOp) : List DataSample :=
  ops.filterMap PipeOp.pushed1

/-- The samples pushed to `queue2` in a run, in order. -/
def pushes2 (ops : List PipeOp) : List DataSample :=
  ops.filterMap PipeOp.pushed2

/-! ## Drivers for the producer and drain properties -/

/-- The samples that the loop of `produceData` builds, in loop order. -/
def produceDataItems (threadId : Int) : List DataSample :=
  (List.range 10).map (fun (i : Nat) => produceSample threadId (i : Int))

/-- One schedule of the pipeline wired by `main`: both producers push all
their samples before the first concentrator iteration, then the concentrator
makes 10 iterations.  `main` starts the three threads together, so this is
one of many schedules, not the run of `main`. -/
def producersFirstSchedule : List PipeOp :=
  (produceDataItems 1).map PipeOp.push1 ++ (produceDataItems 2).map PipeOp.push2
    ++ List.replicate 10 PipeOp.iterate

/-- Another schedule of the pipeline wired by `main`: the first producer
pushes all its samples, the concentrator makes 10 iterations, then the second
producer pushes all its samples and the concentrator makes 10 more. -/
def queueInTurnSchedule : List PipeOp :=
  (produceDataItems 1).map PipeOp.push1 ++ List.replicate 10 PipeOp.iterate
    ++ (produceDataItems 2).map PipeOp.push2 ++ List.replicate 10 PipeOp.iterate

/-- A third schedule of the pipeline wired by `main`, in lock step: each
producer pushes one sample, then the concentrator makes one iteration, ten
times over. -/
def lockStepSchedule : List PipeOp :=
  (List.range 10).flatMap (fun (i : Nat) =>
    [PipeOp.push1 (produceSample 1 (i : Int)), PipeOp.push2 (produceSample 2 (i : Int)),
     PipeOp.iterate])

/-- Pop a queue until `pop` returns `std::nullopt`, collecting the returned
samples in order.  The first argument bounds the number of calls of `pop`;
the result is `none` when that bound is reached before `pop` has returned
`std::nullopt`. -/
def popUntilNone : Nat → ThreadSafeQueue → Option (List DataSample)
  | 0, _ => none
  | fuel + 1, q =>
    match q.pop with
    | (none, _) => some []
    | (some item, q1) => (popUntilNone fuel q1).map (fun popped => item :: popped)

/-! ## Lemmas on the comparison and the priority queue -/

theorem DataSample.less_iff (a b : DataSample) :
    a.less b = true ↔ a.reliability < b.reliability := by
  unfold DataSample.less DataSample.spaceship
  by_cases h : a.reliability < b.reliability
  · simp only [h, if_true, iff_true]
    decide
  · by_cases h2 : a.reliability = b.reliability
    · simp only [h2, lt_self_iff_false, if_false, if_true, iff_false]
      decide
    · simp only [h, h2, if_false, iff_false]
      decide

theorem pqTop_mem (best : DataSample) (rest : List DataSample) :
    pqTop best rest ∈ best :: rest := by
  induction rest generalizing best with
  | nil => simp [pqTop]
  | cons x xs ih =>
    unfold pqTop
    split
    · have := ih x
      simp only [List.mem_cons] at this ⊢
      tauto
    · have := ih best
      simp only [List.mem_cons] at this ⊢
      tauto

theorem pqTop_ge_best (best : DataSample) (rest : List DataSample) :
    best.reliability ≤ (pqTop best rest).reliability := by
  induction rest generalizing best with
  | nil => simp [pqTop]
  | cons x xs ih =>
    unfold pqTop
    split
    · rename_i h
      exact le_trans (le_of_lt ((DataSample.less_iff best x).1 h)) (ih x)
    · exact ih best

theorem pqTop_ge (best : DataSample) (rest : List DataSample) :
    ∀ y ∈ best :: rest, y.reliability ≤ (pqTop best rest).reliability := by
  induction rest generalizing best with
  | nil => simp [pqTop]
  | cons x xs ih =>
    intro y hy
    unfold pqTop
    rcases List.mem_cons.1 hy with rfl | hy
    · split
      · rename_i h
        exact le_trans (le_of_lt ((DataSample.less_iff _ x).1 h)) (pqTop_ge_best x xs)
      · exact pqTop_ge_best _ xs
    · split
      · exact ih x y hy
      · rename_i h
        rcases List.mem_cons.1 hy with rfl | hy
        · have hle : y.reliability ≤ best.reliability := by
            by_contra hc
            exact h ((DataSample.less_iff best y).2 (lt_of_not_ge hc))
          exact le_trans hle (pqTop_ge_best best xs)
        · exact ih best y (List.mem_cons_of_mem _ hy)

theorem pop_nil (q : ThreadSafeQueue) (h : q.queue = []) : q.pop = (none, q) := by
  unfold ThreadSafeQueue.pop
  rw [h]

theorem pop_cons (q : ThreadSafeQueue) (x : DataSample) (xs : List DataSample)
    (h : q.queue = x :: xs) : q.pop = (some (pqTop x xs), ⟨pqPop x xs⟩) := by
  unfold ThreadSafeQueue.pop
  rw [h]

theorem pop_some_spec (q : ThreadSafeQueue) (item : DataSample) (q1 : ThreadSafeQueue)
    (h : q.pop = (some item, q1)) :
    item ∈ q.queue ∧ q1.queue = q.queue.erase item ∧
      ∀ y ∈ q.queue, y.reliability ≤ item.reliability := by
  cases hq : q.queue with
  | nil => rw [pop_nil q hq] at h; simp at h
  | cons x xs =>
    rw [pop_cons q x xs hq] at h
    simp only [Prod.mk.injEq, Option.some.injEq] at h
    obtain ⟨h1, h2⟩ := h
    subst h1
    subst h2
    exact ⟨pqTop_mem x xs, rfl, pqTop_ge x xs⟩

theorem pop_none_spec (q : ThreadSafeQueue) : q.pop.1 = none ↔ q.queue = [] := by
  cases hq : q.queue with
  | nil => simp [pop_nil q hq]
  | cons x xs => simp [pop_cons q x xs hq]

theorem empty_iff (q : ThreadSafeQueue) : q.empty = true ↔ q.queue = [] := by
  simp [ThreadSafeQueue.empty]

theorem pushAll_queue (q : ThreadSafeQueue) (items : List DataSample) :
    (pushAll q items).queue = q.queue ++ items := by
  induction items generalizing q with
  | nil => simp [pushAll]
  | cons x xs ih =>
    have := ih (q.push x)
    simp only [pushAll, List.foldl_cons] at this ⊢
    rw [this]
    simp [ThreadSafeQueue.push]

theorem push_size (q : ThreadSafeQueue) (item : DataSample) :
    (q.push item).size = q.size + 1 := by
  simp [ThreadSafeQueue.push, ThreadSafeQueue.size]

theorem pop_size (q : ThreadSafeQueue) :
    q.pop.2.size + (if q.pop.1.isSome then 1 else 0) = q.size := by
  cases hq : q.queue with
  | nil => simp [pop_nil q hq, ThreadSafeQueue.size, hq]
  | cons x xs =>
    have hmem := pqTop_mem x xs
    simp [pop_cons q x xs hq, ThreadSafeQueue.size, hq, pqPop, List.length_erase_of_mem hmem]

theorem step_balanced (r : QueueRun) (op : QueueOp) (h : r.Balanced) :
    (r.step op).Balanced := by
  unfold QueueRun.Balanced at h ⊢
  cases op with
  | push item =>
    simp only [QueueRun.step, ThreadSafeQueue.push]
    have h1 : List.Perm (r.q.queue ++ [item] ++ r.returned) (r.q.queue ++ r.returned ++ [item]) := by
      simp only [List.append_assoc]
      exact List.Perm.append_left _ List.perm_append_comm
    exact h1.trans (List.Perm.append_right _ h)
  | pop =>
    simp only [QueueRun.step]
    cases hq : r.q.queue with
    | nil =>
      rw [pop_nil r.q hq]
      simpa [hq] using h
    | cons x xs =>
      rw [pop_cons r.q x xs hq]
      simp only [pqPop]
      have hmem := pqTop_mem x xs
      have h1 : List.Perm (x :: xs) (pqTop x xs :: (x :: xs).erase (pqTop x xs)) :=
        List.perm_cons_erase hmem
      have h2 : List.Perm ((x :: xs).erase (pqTop x xs) ++ (r.returned ++ [pqTop x xs]))
          (pqTop x xs :: (x :: xs).erase (pqTop x xs) ++ r.returned) := by
        rw [← List.append_assoc]
        exact List.perm_append_comm.trans (by simp)
      rw [hq] at h
      exact h2.trans ((List.Perm.append_right _ h1.symm).trans h)
  | empty => simpa [QueueRun.step] using h

theorem foldl_balanced (ops : List QueueOp) (r : QueueRun) (h : r.Balanced) :
    (ops.foldl QueueRun.step r).Balanced := by
  induction ops generalizing r with
  | nil => simpa using h
  | cons op ops ih => exact ih _ (step_balanced r op h)

theorem runQueueOps_balanced (ops : List QueueOp) : (runQueueOps ops).Balanced :=
  foldl_balanced ops _ (by simp [QueueRun.Balanced, ThreadSafeQueue.fresh])

theorem foldl_pushed_length (ops : List QueueOp) (r : QueueRun) :
    (ops.foldl QueueRun.step r).pushed.length
      = r.pushed.length + (ops.filter QueueOp.isPush).length := by
  induction ops generalizing r with
  | nil => simp
  | cons op ops ih =>
    rw [List.foldl_cons, ih]
    cases op with
    | push item => simp [QueueRun.step, QueueOp.isPush]; omega
    | pop =>
      have hf : (List.filter QueueOp.isPush (QueueOp.pop :: ops))
          = List.filter QueueOp.isPush ops := by
        simp [List.filter_cons, QueueOp.isPush]
      rw [hf]
      simp only [QueueRun.step]
      split <;> rfl
    | empty => simp [QueueRun.step, QueueOp.isPush]

/-! ## ThreadSafeQueue: the claims -/

/-- C1 (P1, max-extraction): after any sequence of pushes onto any queue, a
pop on the resulting non-empty queue returns an item, and the reliability of
that item is greater than or equal to the reliability of every sample still
resident in the queue right after the pop. -/
theorem pop_max_extraction (q0 : ThreadSafeQueue) (items : List DataSample)
    (h : (pushAll q0 items).empty = false) :
    ∃ item q1, (pushAll q0 items).pop = (some item, q1) ∧
      ∀ y ∈ q1.queue, item.reliability ≥ y.reliability := by
  cases hq : (pushAll q0 items).queue with
  | nil => simp [ThreadSafeQueue.empty, hq] at h
  | cons x xs =>
    refine ⟨pqTop x xs, ⟨pqPop x xs⟩, pop_cons _ x xs hq, ?_⟩
    intro y hy
    exact pqTop_ge x xs y (List.mem_of_mem_erase hy)

/-- Witness for C1: two pushes onto a fresh queue, then a pop. -/
theorem pop_max_extraction_witness :
    (pushAll ThreadSafeQueue.fresh [⟨1, 1 / 2⟩, ⟨2, 7 / 10⟩]).empty = false ∧
    ∃ item q1, (pushAll ThreadSafeQueue.fresh [⟨1, 1 / 2⟩, ⟨2, 7 / 10⟩]).pop = (some item, q1) ∧
      ∀ y ∈ q1.queue, item.reliability ≥ y.reliability :=
  ⟨by decide, pop_max_extraction ThreadSafeQueue.fresh [⟨1, 1 / 2⟩, ⟨2, 7 / 10⟩] (by decide)⟩

/-- C2 (P2, conservation): after every sequence of push, pop and empty calls
on an initially empty queue, the number of resident items plus the number of
pops that returned an item equals the number of push calls.  A push makes the
size one larger, a pop that returns an item makes it one smaller, a pop that
returns no item leaves the queue as it was, and a call of empty leaves the
whole run as it was. -/
theorem queue_conservation (ops : List QueueOp) (q : ThreadSafeQueue) (item : DataSample)
    (r : QueueRun) :
    (runQueueOps ops).q.size + (runQueueOps ops).returned.length
        = (ops.filter QueueOp.isPush).length ∧
    (q.push item).size = q.size + 1 ∧
    (if q.pop.1.isSome then q.pop.2.size + 1 = q.size else q.pop.2 = q) ∧
    r.step QueueOp.empty = r := by
  refine ⟨?_, push_size q item, ?_, rfl⟩
  · have h := (runQueueOps_balanced ops).length_eq
    have h2 := foldl_pushed_length ops ⟨ThreadSafeQueue.fresh, [], []⟩
    unfold runQueueOps at h ⊢
    simp only [List.length_append, List.length_nil, Nat.zero_add] at h h2
    rw [← h2, ← h]
    rfl
  · have h := pop_size q
    split
    · rename_i hs
      simpa [hs] using h
    · rename_i hs
      cases hq : q.queue with
      | nil => rw [pop_nil q hq]
      | cons x xs => simp [pop_cons q x xs hq] at hs

/-- C3: in the state reached by any run of calls from an empty queue, the
resident items together with the items already returned are exactly the items
pushed; a pop that returns an item returns a resident one, and the contents
before the pop are the contents after it plus one occurrence of that item. -/
theorem pop_returns_resident (ops : List QueueOp) (item : DataSample) (q1 : ThreadSafeQueue)
    (h : (runQueueOps ops).q.pop = (some item, q1)) :
    List.Perm ((runQueueOps ops).q.queue ++ (runQueueOps ops).returned)
        (runQueueOps ops).pushed ∧
    item ∈ (runQueueOps ops).q.queue ∧
    List.Perm (runQueueOps ops).q.queue (item :: q1.queue) ∧
    q1.queue = (runQueueOps ops).q.queue.erase item := by
  obtain ⟨hmem, herase, _⟩ := pop_some_spec _ item q1 h
  refine ⟨runQueueOps_balanced ops, hmem, ?_, herase⟩
  rw [herase]
  exact List.perm_cons_erase hmem

/-- Witness for C3: three pushes, then a pop. -/
theorem pop_returns_resident_witness :
    (runQueueOps [QueueOp.push ⟨1, 1 / 2⟩, QueueOp.push ⟨2, 7 / 10⟩,
        QueueOp.push ⟨3, 7 / 10⟩]).q.pop
      = (some ⟨2, 7 / 10⟩, ⟨[⟨1, 1 / 2⟩, ⟨3, 7 / 10⟩]⟩) ∧
    (2 : Int) ∈ (runQueueOps [QueueOp.push ⟨1, 1 / 2⟩, QueueOp.push ⟨2, 7 / 10⟩,
        QueueOp.push ⟨3, 7 / 10⟩]).q.queue.map DataSample.value :=
  ⟨by with_unfolding_all decide,
   List.mem_map_of_mem DataSample.value
    (pop_returns_resident [QueueOp.push ⟨1, 1 / 2⟩, QueueOp.push ⟨2, 7 / 10⟩,
      QueueOp.push ⟨3, 7 / 10⟩] ⟨2, 7 / 10⟩ ⟨[⟨1, 1 / 2⟩, ⟨3, 7 / 10⟩]⟩
      (by with_unfolding_all decide)).2.1⟩

/-- C4 (P3, no-block-on-empty): pop returns no item exactly when the queue is
empty, and a pop on an empty queue returns no item and leaves the queue as it
was, hence empty.  Pop is a total function: it has no wait. -/
theorem pop_empty_no_item (q : ThreadSafeQueue) :
    (q.pop.1 = none ↔ q.empty = true) ∧
    (q.empty = true → q.pop = (none, q) ∧ q.pop.2.empty = true) := by
  refine ⟨by rw [pop_none_spec, empty_iff], ?_⟩
  intro h
  have hq := (empty_iff q).1 h
  rw [pop_nil q hq]
  exact ⟨rfl, h⟩

/-- Witness for C4: pop on a fresh queue. -/
theorem pop_empty_no_item_witness :
    ThreadSafeQueue.fresh.empty = true ∧
    ThreadSafeQueue.fresh.pop = (none, ThreadSafeQueue.fresh) :=
  ⟨by decide, ((pop_empty_no_item ThreadSafeQueue.fresh).2 (by decide)).1⟩

/-! ## Lemmas on the concentrator -/

theorem pop_isSome (q : ThreadSafeQueue) : q.pop.1.isSome = !q.empty := by
  cases hq : q.queue with
  | nil => simp [pop_nil q hq, ThreadSafeQueue.empty, hq]
  | cons x xs => simp [pop_cons q x xs hq, ThreadSafeQueue.empty, hq]

theorem loopBody_out (s : Concentrator) :
    (loopBody s).out = s.out ++ (iterationLine s).toList := rfl

theorem selectLine_isProcessing (a b : Option DataSample) :
    ∀ l ∈ (selectLine a b).toList, l.isProcessing = true := by
  intro l hl
  cases a <;> cases b <;> simp only [selectLine] at hl
  · simp at hl
  · simp only [Option.toList, List.mem_singleton] at hl
    subst hl
    rfl
  · simp only [Option.toList, List.mem_singleton] at hl
    subst hl
    rfl
  · split at hl <;>
    · simp only [Option.toList, List.mem_singleton] at hl
      subst hl
      rfl

theorem selectLine_length (a b : Option DataSample) :
    (selectLine a b).toList.length = if a.isSome || b.isSome then 1 else 0 := by
  cases a <;> cases b <;> simp only [selectLine]
  · simp
  · simp
  · simp
  · split <;> simp

theorem processingLines_append (xs ys : List Line) :
    processingLines (xs ++ ys) = processingLines xs + processingLines ys := by
  simp [processingLines]

theorem stoppedLines_append (xs ys : List Line) :
    stoppedLines (xs ++ ys) = stoppedLines xs + stoppedLines ys := by
  simp [stoppedLines]

theorem processingLines_selectLine (a b : Option DataSample) :
    processingLines (selectLine a b).toList = if a.isSome || b.isSome then 1 else 0 := by
  rw [← selectLine_length a b]
  unfold processingLines
  rw [List.filter_eq_self.2 (selectLine_isProcessing a b)]

theorem stoppedLines_selectLine (a b : Option DataSample) :
    stoppedLines (selectLine a b).toList = 0 := by
  unfold stoppedLines
  rw [List.count_eq_zero]
  intro h
  have := selectLine_isProcessing a b _ h
  simp [Line.isProcessing] at this

theorem loopBody_processingLines (s : Concentrator) :
    processingLines (loopBody s).out
      = processingLines s.out + (if s.queue1.empty && s.queue2.empty then 0 else 1) := by
  rw [loopBody_out, processingLines_append, iterationLine, processingLines_selectLine,
    pop_isSome, pop_isSome]
  cases s.queue1.empty <;> cases s.queue2.empty <;> rfl

theorem loopBody_stoppedLines (s : Concentrator) :
    stoppedLines (loopBody s).out = stoppedLines s.out := by
  rw [loopBody_out, stoppedLines_append, iterationLine, stoppedLines_selectLine, Nat.add_zero]

theorem iterate_stoppedLines (n : Nat) (s : Concentrator) :
    stoppedLines (loopBody^[n] s).out = stoppedLines s.out := by
  induction n generalizing s with
  | zero => rfl
  | succ n ih => rw [Function.iterate_succ_apply, ih, loopBody_stoppedLines]

theorem dataConcentrator_running (n : Nat) (s : Concentrator) :
    dataConcentrator (List.replicate n true) s = (loopBody^[n] s, false) := by
  induction n generalizing s with
  | zero => rfl
  | succ n ih =>
    rw [List.replicate_succ, Function.iterate_succ_apply]
    exact ih (loopBody s)

theorem dataConcentrator_stop (n : Nat) (rest : List Bool) (s : Concentrator) :
    dataConcentrator (List.replicate n true ++ false :: rest) s
      = ({ (loopBody^[n] s) with out := (loopBody^[n] s).out ++ [Line.stopped] }, true) := by
  induction n generalizing s with
  | zero => rfl
  | succ n ih =>
    rw [List.replicate_succ, Function.iterate_succ_apply]
    exact ih (loopBody s)

/-! ## dataConcentrator: the claims -/

/-- C5 (P4, decision table): with a the result of popping queue1 and b the
result of popping queue2, one iteration prints a when both are items and
a.reliability >= b.reliability, prints b when both are items and
a.reliability < b.reliability, prints a when only queue1 gave an item, prints
b when only queue2 gave an item, and prints nothing when neither did.  With
0.7 in queue1 against 0.5 in queue2 the queue1 sample is printed. -/
theorem concentrator_decision_table (s : Concentrator) (a b : DataSample) :
    (s.queue1.pop.1 = some a → s.queue2.pop.1 = some b → a.reliability ≥ b.reliability →
      (loopBody s).out = s.out ++ [Line.processing 1 a]) ∧
    (s.queue1.pop.1 = some a → s.queue2.pop.1 = some b → a.reliability < b.reliability →
      (loopBody s).out = s.out ++ [Line.processing 2 b]) ∧
    (s.queue1.pop.1 = some a → s.queue2.pop.1 = none →
      (loopBody s).out = s.out ++ [Line.processing 1 a]) ∧
    (s.queue1.pop.1 = none → s.queue2.pop.1 = some b →
      (loopBody s).out = s.out ++ [Line.processing 2 b]) ∧
    (s.queue1.pop.1 = none → s.queue2.pop.1 = none → (loopBody s).out = s.out) ∧
    (s.queue1.queue = [a] → s.queue2.queue = [b] →
      a.reliability = 7 / 10 → b.reliability = 1 / 2 →
      (loopBody s).out = s.out ++ [Line.processing 1 a]) := by
  refine ⟨?_, ?_, ?_, ?_, ?_, ?_⟩
  · intro h1 h2 h
    rw [loopBody_out, iterationLine, h1, h2]
    simp [selectLine, h]
  · intro h1 h2 h
    rw [loopBody_out, iterationLine, h1, h2]
    simp [selectLine, not_le.2 h]
  · intro h1 h2
    rw [loopBody_out, iterationLine, h1, h2]
    simp [selectLine]
  · intro h1 h2
    rw [loopBody_out, iterationLine, h1, h2]
    simp [selectLine]
  · intro h1 h2
    rw [loopBody_out, iterationLine, h1, h2]
    simp [selectLine]
  · intro h1 h2 ha hb
    rw [loopBody_out, iterationLine, pop_cons _ a [] h1, pop_cons _ b [] h2]
    have h : b.reliability ≤ a.reliability := by rw [ha, hb]; norm_num
    simp [selectLine, pqTop, h]

/-- Witness for C5: 0.7 in queue1 against 0.5 in queue2. -/
theorem concentrator_decision_table_witness :
    (loopBody ⟨⟨[⟨1, 7 / 10⟩]⟩, ⟨[⟨2, 1 / 2⟩]⟩, []⟩).out = [Line.processing 1 ⟨1, 7 / 10⟩] :=
  (concentrator_decision_table ⟨⟨[⟨1, 7 / 10⟩]⟩, ⟨[⟨2, 1 / 2⟩]⟩, []⟩
    ⟨1, 7 / 10⟩ ⟨2, 1 / 2⟩).2.2.2.2.2 rfl rfl rfl rfl

/-- Counterexample to C6: with one sample of reliability 0.5 in each queue,
one iteration prints the queue1 sample and queue2, which held the sample that
was not printed, does not keep its contents: it is empty afterwards. -/
theorem tie_keeps_other_channel_counterexample :
    (loopBody ⟨⟨[⟨1, 1 / 2⟩]⟩, ⟨[⟨2, 1 / 2⟩]⟩, []⟩).out = [Line.processing 1 ⟨1, 1 / 2⟩] ∧
    (loopBody ⟨⟨[⟨1, 1 / 2⟩]⟩, ⟨[⟨2, 1 / 2⟩]⟩, []⟩).queue2 = ⟨[]⟩ ∧
    (loopBody ⟨⟨[⟨1, 1 / 2⟩]⟩, ⟨[⟨2, 1 / 2⟩]⟩, []⟩).queue2 ≠ ⟨[⟨2, 1 / 2⟩]⟩ := by
  with_unfolding_all decide

/-- C6 (P5, tie behaviour) as amended: when the pops of queue1 and queue2 give
samples a and b, both of reliability exactly 0.5, one iteration prints
exactly one line, for the queue1 sample a, and removes one sample from each
queue: a from queue1 and also b, which is not printed, from queue2. -/
theorem tie_emits_queue1_pops_both (s : Concentrator) (a b : DataSample)
    (h1 : s.queue1.pop.1 = some a) (h2 : s.queue2.pop.1 = some b)
    (ha : a.reliability = 1 / 2) (hb : b.reliability = 1 / 2) :
    (loopBody s).out = s.out ++ [Line.processing 1 a] ∧
    a ∈ s.queue1.queue ∧ (loopBody s).queue1.queue = s.queue1.queue.erase a ∧
    b ∈ s.queue2.queue ∧ (loopBody s).queue2.queue = s.queue2.queue.erase b ∧
    (loopBody s).queue1.size + 1 = s.queue1.size ∧
    (loopBody s).queue2.size + 1 = s.queue2.size := by
  have e1 : s.queue1.pop = (some a, s.queue1.pop.2) := by rw [← h1]
  have e2 : s.queue2.pop = (some b, s.queue2.pop.2) := by rw [← h2]
  obtain ⟨m1, r1, _⟩ := pop_some_spec _ _ _ e1
  obtain ⟨m2, r2, _⟩ := pop_some_spec _ _ _ e2
  have hout : (loopBody s).out = s.out ++ [Line.processing 1 a] := by
    rw [loopBody_out, iterationLine, h1, h2]
    simp [selectLine, ha, hb]
  have hq1 : (loopBody s).queue1 = s.queue1.pop.2 := rfl
  have hq2 : (loopBody s).queue2 = s.queue2.pop.2 := rfl
  refine ⟨hout, m1, by rw [hq1, r1], m2, by rw [hq2, r2], ?_, ?_⟩
  · rw [hq1, ThreadSafeQueue.size, r1, List.length_erase_of_mem m1, ThreadSafeQueue.size]
    have := List.length_pos_of_mem m1
    omega
  · rw [hq2, ThreadSafeQueue.size, r2, List.length_erase_of_mem m2, ThreadSafeQueue.size]
    have := List.length_pos_of_mem m2
    omega

/-- Witness for C6 as amended: one sample of reliability 0.5 in each queue. -/
theorem tie_emits_queue1_pops_both_witness :
    (loopBody ⟨⟨[⟨1, 1 / 2⟩]⟩, ⟨[⟨2, 1 / 2⟩]⟩, []⟩).out = [] ++ [Line.processing 1 ⟨1, 1 / 2⟩] ∧
    (loopBody ⟨⟨[⟨1, 1 / 2⟩]⟩, ⟨[⟨2, 1 / 2⟩]⟩, []⟩).queue2.size + 1 = 1 :=
  ⟨(tie_emits_queue1_pops_both ⟨⟨[⟨1, 1 / 2⟩]⟩, ⟨[⟨2, 1 / 2⟩]⟩, []⟩ ⟨1, 1 / 2⟩ ⟨2, 1 / 2⟩
      rfl rfl rfl rfl).1,
   (tie_emits_queue1_pops_both ⟨⟨[⟨1, 1 / 2⟩]⟩, ⟨[⟨2, 1 / 2⟩]⟩, []⟩ ⟨1, 1 / 2⟩ ⟨2, 1 / 2⟩
      rfl rfl rfl rfl).2.2.2.2.2.2⟩

/-! ## Conservation in the pipeline -/

theorem loopBody_sizes (c : Concentrator) :
    processingLines (loopBody c).out
        + (if c.queue1.empty || c.queue2.empty then 0 else 1)
        + (loopBody c).queue1.size + (loopBody c).queue2.size
      = processingLines c.out + c.queue1.size + c.queue2.size := by
  have h1 := pop_size c.queue1
  have h2 := pop_size c.queue2
  have e1 : (loopBody c).queue1 = c.queue1.pop.2 := rfl
  have e2 : (loopBody c).queue2 = c.queue2.pop.2 := rfl
  rw [loopBody_processingLines, e1, e2]
  rw [pop_isSome] at h1 h2
  cases hq1 : c.queue1.empty <;> cases hq2 : c.queue2.empty <;>
    simp only [hq1, hq2, Bool.not_true, Bool.not_false, if_true, if_false, Bool.or_self,
      Bool.and_self, Bool.or_true, Bool.true_or, Bool.and_true, Bool.and_false,
      Bool.false_eq_true, Bool.or_false] at h1 h2 ⊢ <;> omega

theorem pipe_step_conserves (r : PipeRun) (op : PipeOp)
    (h : processingLines r.c.out + r.bothFound + r.c.queue1.size + r.c.queue2.size
      = r.pushed) :
    processingLines (r.step op).c.out + (r.step op).bothFound + (r.step op).c.queue1.size
        + (r.step op).c.queue2.size = (r.step op).pushed := by
  cases op with
  | push1 item =>
    simp only [PipeRun.step, push_size]
    omega
  | push2 item =>
    simp only [PipeRun.step, push_size]
    omega
  | iterate =>
    simp only [PipeRun.step]
    have := loopBody_sizes r.c
    omega

theorem pipe_foldl_conserves (ops : List PipeOp) (r : PipeRun)
    (h : processingLines r.c.out + r.bothFound + r.c.queue1.size + r.c.queue2.size
      = r.pushed) :
    processingLines (ops.foldl PipeRun.step r).c.out + (ops.foldl PipeRun.step r).bothFound
        + (ops.foldl PipeRun.step r).c.queue1.size + (ops.foldl PipeRun.step r).c.queue2.size
      = (ops.foldl PipeRun.step r).pushed := by
  induction ops generalizing r with
  | nil => simpa using h
  | cons op ops ih => exact ih _ (pipe_step_conserves r op h)

theorem pipe_step_bounds (r : PipeRun) (op : PipeOp) :
    (r.step op).pushed = r.pushed + (pushes1 [op]).length + (pushes2 [op]).length ∧
    (r.step op).bothFound + (r.step op).c.queue1.size
      ≤ r.bothFound + r.c.queue1.size + (pushes1 [op]).length ∧
    (r.step op).bothFound + (r.step op).c.queue2.size
      ≤ r.bothFound + r.c.queue2.size + (pushes2 [op]).length := by
  cases op with
  | push1 item =>
    have p1 : (pushes1 [PipeOp.push1 item]).length = 1 := rfl
    have p2 : (pushes2 [PipeOp.push1 item]).length = 0 := rfl
    simp only [PipeRun.step, push_size, p1, p2]
    refine ⟨?_, ?_, ?_⟩ <;> trivial
  | push2 item =>
    have p1 : (pushes1 [PipeOp.push2 item]).length = 0 := rfl
    have p2 : (pushes2 [PipeOp.push2 item]).length = 1 := rfl
    simp only [PipeRun.step, push_size, p1, p2]
    refine ⟨?_, ?_, ?_⟩ <;> trivial
  | iterate =>
    have h1 := pop_size r.c.queue1
    have h2 := pop_size r.c.queue2
    have e1 : (loopBody r.c).queue1 = r.c.queue1.pop.2 := rfl
    have e2 : (loopBody r.c).queue2 = r.c.queue2.pop.2 := rfl
    have p1 : (pushes1 [PipeOp.iterate]).length = 0 := rfl
    have p2 : (pushes2 [PipeOp.iterate]).length = 0 := rfl
    rw [pop_isSome] at h1 h2
    simp only [PipeRun.step, p1, p2, e1, e2]
    cases hq1 : r.c.queue1.empty <;> cases hq2 : r.c.queue2.empty <;>
      simp only [hq1, hq2, Bool.not_true, Bool.not_false, if_true, if_false, Bool.or_self,
        Bool.or_true, Bool.true_or, Bool.false_eq_true, Bool.or_false] at h1 h2 ⊢ <;> omega

theorem pushes1_cons (op : PipeOp) (ops : List PipeOp) :
    (pushes1 (op :: ops)).length = (pushes1 [op]).length + (pushes1 ops).length := by
  cases op
  · simp [pushes1, PipeOp.pushed1]
    omega
  · simp [pushes1, PipeOp.pushed1]
  · simp [pushes1, PipeOp.pushed1]

theorem pushes2_cons (op : PipeOp) (ops : List PipeOp) :
    (pushes2 (op :: ops)).length = (pushes2 [op]).length + (pushes2 ops).length := by
  cases op
  · simp [pushes2, PipeOp.pushed2]
  · simp [pushes2, PipeOp.pushed2]
    omega
  · simp [pushes2, PipeOp.pushed2]

theorem pipe_foldl_bounds (ops : List PipeOp) (r : PipeRun) :
    (ops.foldl PipeRun.step r).pushed
      = r.pushed + (pushes1 ops).length + (pushes2 ops).length ∧
    (ops.foldl PipeRun.step r).bothFound + (ops.foldl PipeRun.step r).c.queue1.size
      ≤ r.bothFound + r.c.queue1.size + (pushes1 ops).length ∧
    (ops.foldl PipeRun.step r).bothFound + (ops.foldl PipeRun.step r).c.queue2.size
      ≤ r.bothFound + r.c.queue2.size + (pushes2 ops).length := by
  induction ops generalizing r with
  | nil => simp [pushes1, pushes2]
  | cons op ops ih =>
    obtain ⟨a1, a2, a3⟩ := pipe_step_bounds r op
    obtain ⟨b1, b2, b3⟩ := ih (r.step op)
    have c1 := pushes1_cons op ops
    have c2 := pushes2_cons op ops
    rw [List.foldl_cons]
    refine ⟨?_, ?_, ?_⟩ <;> omega

theorem runPipeOps_conserves (ops : List PipeOp) :
    processingLines (runPipeOps ops).c.out + (runPipeOps ops).bothFound
        + (runPipeOps ops).c.queue1.size + (runPipeOps ops).c.queue2.size
      = (runPipeOps ops).pushed :=
  pipe_foldl_conserves ops _ (by simp [processingLines, ThreadSafeQueue.fresh,
    ThreadSafeQueue.size])

theorem runPipeOps_bounds (ops : List PipeOp) :
    (runPipeOps ops).pushed = (pushes1 ops).length + (pushes2 ops).length ∧
    (runPipeOps ops).bothFound + (runPipeOps ops).c.queue1.size ≤ (pushes1 ops).length ∧
    (runPipeOps ops).bothFound + (runPipeOps ops).c.queue2.size ≤ (pushes2 ops).length := by
  have h := pipe_foldl_bounds ops ⟨⟨ThreadSafeQueue.fresh, ThreadSafeQueue.fresh, []⟩, 0, 0⟩
  simp only [ThreadSafeQueue.fresh, ThreadSafeQueue.size, List.length_nil, Nat.zero_add,
    Nat.add_zero] at h
  exact h

theorem empty_size (q : ThreadSafeQueue) (h : q.empty = true) : q.size = 0 := by
  rw [ThreadSafeQueue.size, (empty_iff q).1 h]
  rfl

theorem schedules_push_main_samples :
    pushes1 producersFirstSchedule = (mainProducer1 ThreadSafeQueue.fresh).queue ∧
    pushes2 producersFirstSchedule = (mainProducer2 ThreadSafeQueue.fresh).queue ∧
    pushes1 queueInTurnSchedule = (mainProducer1 ThreadSafeQueue.fresh).queue ∧
    pushes2 queueInTurnSchedule = (mainProducer2 ThreadSafeQueue.fresh).queue ∧
    pushes1 lockStepSchedule = (mainProducer1 ThreadSafeQueue.fresh).queue ∧
    pushes2 lockStepSchedule = (mainProducer2 ThreadSafeQueue.fresh).queue := by
  with_unfolding_all decide

theorem producersFirst_run :
    (pushes1 producersFirstSchedule).length = 10 ∧
    (pushes2 producersFirstSchedule).length = 10 ∧
    (runPipeOps producersFirstSchedule).c.queue1.empty = true ∧
    (runPipeOps producersFirstSchedule).c.queue2.empty = true ∧
    processingLines (runPipeOps producersFirstSchedule).c.out = 10 := by
  with_unfolding_all decide

theorem queueInTurn_run :
    (pushes1 queueInTurnSchedule).length = 10 ∧
    (pushes2 queueInTurnSchedule).length = 10 ∧
    (runPipeOps queueInTurnSchedule).c.queue1.empty = true ∧
    (runPipeOps queueInTurnSchedule).c.queue2.empty = true ∧
    processingLines (runPipeOps queueInTurnSchedule).c.out = 20 := by
  with_unfolding_all decide

theorem lockStep_run :
    (pushes1 lockStepSchedule).length = 10 ∧
    (pushes2 lockStepSchedule).length = 10 ∧
    (runPipeOps lockStepSchedule).c.queue1.empty = true ∧
    (runPipeOps lockStepSchedule).c.queue2.empty = true ∧
    processingLines (runPipeOps lockStepSchedule).c.out = 10 := by
  with_unfolding_all decide

/-- Counterexample to C7: after one push to each queue and one iteration, one
sample is printed although two were pushed and none is resident; and in the
schedule in which the producers of main push their 10 samples each before the
first iteration, 10 iterations leave both queues empty after 10 Processing
lines, not 20. -/
theorem no_sample_lost_counterexample :
    processingLines (runPipeOps [PipeOp.push1 ⟨1, 7 / 10⟩, PipeOp.push2 ⟨2, 1 / 2⟩,
      PipeOp.iterate]).c.out = 1 ∧
    (runPipeOps [PipeOp.push1 ⟨1, 7 / 10⟩, PipeOp.push2 ⟨2, 1 / 2⟩, PipeOp.iterate]).pushed = 2 ∧
    (runPipeOps [PipeOp.push1 ⟨1, 7 / 10⟩, PipeOp.push2 ⟨2, 1 / 2⟩,
      PipeOp.iterate]).c.queue1.size = 0 ∧
    (runPipeOps [PipeOp.push1 ⟨1, 7 / 10⟩, PipeOp.push2 ⟨2, 1 / 2⟩,
      PipeOp.iterate]).c.queue2.size = 0 ∧
    pushes1 producersFirstSchedule = (mainProducer1 ThreadSafeQueue.fresh).queue ∧
    pushes2 producersFirstSchedule = (mainProducer2 ThreadSafeQueue.fresh).queue ∧
    (pushes1 producersFirstSchedule).length = 10 ∧
    (pushes2 producersFirstSchedule).length = 10 ∧
    (runPipeOps producersFirstSchedule).c.queue1.empty = true ∧
    (runPipeOps producersFirstSchedule).c.queue2.empty = true ∧
    processingLines (runPipeOps producersFirstSchedule).c.out = 10 ∧
    processingLines (runPipeOps producersFirstSchedule).c.out ≠ 20 := by
  with_unfolding_all decide

/-- C7 as amended: in every sequential run of pushes to the two queues and
concentrator iterations, the number of samples printed plus the number of
iterations that found both queues non-empty equals the number pushed minus
the number still resident, so the number printed is at most the number
removed.  In the end-to-end scenario, that is in every such run that pushes
10 samples to each queue, however the pushes and the iterations interleave,
and ends with both queues empty, the number of Processing lines is 20 minus
the number of iterations that found both queues non-empty, so it is at least
10 and at most 20.  Both ends occur with the samples of main: 10 lines when
all pushes come before the first iteration or when pushes and iterations go
in lock step, 20 lines when each queue is filled and drained in turn. -/
theorem printed_plus_dropped_conserved (ops sched : List PipeOp)
    (h1 : (pushes1 sched).length = 10) (h2 : (pushes2 sched).length = 10)
    (he1 : (runPipeOps sched).c.queue1.empty = true)
    (he2 : (runPipeOps sched).c.queue2.empty = true) :
    processingLines (runPipeOps ops).c.out + (runPipeOps ops).bothFound
        + (runPipeOps ops).c.queue1.size + (runPipeOps ops).c.queue2.size
      = (runPipeOps ops).pushed ∧
    (runPipeOps ops).pushed = (pushes1 ops).length + (pushes2 ops).length ∧
    processingLines (runPipeOps ops).c.out + (runPipeOps ops).c.queue1.size
        + (runPipeOps ops).c.queue2.size ≤ (runPipeOps ops).pushed ∧
    processingLines (runPipeOps sched).c.out + (runPipeOps sched).bothFound = 20 ∧
    10 ≤ processingLines (runPipeOps sched).c.out ∧
    processingLines (runPipeOps sched).c.out ≤ 20 ∧
    processingLines (runPipeOps producersFirstSchedule).c.out = 10 ∧
    processingLines (runPipeOps lockStepSchedule).c.out = 10 ∧
    processingLines (runPipeOps queueInTurnSchedule).c.out = 20 := by
  have hc := runPipeOps_conserves ops
  have hb := runPipeOps_bounds ops
  have hcs := runPipeOps_conserves sched
  obtain ⟨hp, hb1, _⟩ := runPipeOps_bounds sched
  have z1 := empty_size _ he1
  have z2 := empty_size _ he2
  refine ⟨hc, hb.1, by omega, by omega, by omega, by omega, producersFirst_run.2.2.2.2,
    lockStep_run.2.2.2.2, queueInTurn_run.2.2.2.2⟩

/-- Witness for C7 as amended: the schedule in which each queue is filled and
drained in turn, where no iteration finds both queues non-empty. -/
theorem printed_plus_dropped_conserved_witness :
    (pushes1 queueInTurnSchedule).length = 10 ∧
    (pushes2 queueInTurnSchedule).length = 10 ∧
    (runPipeOps queueInTurnSchedule).c.queue1.empty = true ∧
    (runPipeOps queueInTurnSchedule).c.queue2.empty = true ∧
    processingLines (runPipeOps queueInTurnSchedule).c.out
      + (runPipeOps queueInTurnSchedule).bothFound = 20 :=
  ⟨by with_unfolding_all decide, by with_unfolding_all decide, by with_unfolding_all decide,
   by with_unfolding_all decide,
   (printed_plus_dropped_conserved [] queueInTurnSchedule (by with_unfolding_all decide)
    (by with_unfolding_all decide) (by with_unfolding_all decide)
    (by with_unfolding_all decide)).2.2.2.1⟩

/-- Counterexample to C8: the first sample that the producer wired to queue1
pushes has value 11 and reliability 0.2, not 1 and 0.1, and the first sample
that the producer wired to queue2 pushes has value 21 and reliability 0.3,
not 11 and 0.2. -/
theorem main_producer_output_counterexample :
    (mainProducer1 ThreadSafeQueue.fresh).queue.head? = some ⟨11, 2 / 10⟩ ∧
    (mainProducer1 ThreadSafeQueue.fresh).queue.head? ≠ some ⟨1, 1 / 10⟩ ∧
    (mainProducer2 ThreadSafeQueue.fresh).queue.head? = some ⟨21, 3 / 10⟩ ∧
    (mainProducer2 ThreadSafeQueue.fresh).queue.head? ≠ some ⟨11, 2 / 10⟩ := by
  with_unfolding_all decide

/-- C8 as amended: in the pipeline wired by main, the producer feeding queue1
pushes samples with values 11,12,...,20 and reliabilities 0.2,0.4,...,2.0
(2k/10 for k = 1..10), and the producer feeding queue2 pushes samples with
values 21,22,...,30 and reliabilities 0.3,0.6,...,3.0 (3k/10 for k = 1..10),
each in that order. -/
theorem main_producer_output (queue1 queue2 : ThreadSafeQueue) :
    mainProducer1 queue1 = pushAll queue1
      [⟨11, 2 / 10⟩, ⟨12, 4 / 10⟩, ⟨13, 6 / 10⟩, ⟨14, 8 / 10⟩, ⟨15, 10 / 10⟩,
       ⟨16, 12 / 10⟩, ⟨17, 14 / 10⟩, ⟨18, 16 / 10⟩, ⟨19, 18 / 10⟩, ⟨20, 20 / 10⟩] ∧
    mainProducer2 queue2 = pushAll queue2
      [⟨21, 3 / 10⟩, ⟨22, 6 / 10⟩, ⟨23, 9 / 10⟩, ⟨24, 12 / 10⟩, ⟨25, 15 / 10⟩,
       ⟨26, 18 / 10⟩, ⟨27, 21 / 10⟩, ⟨28, 24 / 10⟩, ⟨29, 27 / 10⟩, ⟨30, 30 / 10⟩] ∧
    (mainProducer1 queue1).queue = queue1.queue ++
      [⟨11, 2 / 10⟩, ⟨12, 4 / 10⟩, ⟨13, 6 / 10⟩, ⟨14, 8 / 10⟩, ⟨15, 10 / 10⟩,
       ⟨16, 12 / 10⟩, ⟨17, 14 / 10⟩, ⟨18, 16 / 10⟩, ⟨19, 18 / 10⟩, ⟨20, 20 / 10⟩] ∧
    (mainProducer2 queue2).queue = queue2.queue ++
      [⟨21, 3 / 10⟩, ⟨22, 6 / 10⟩, ⟨23, 9 / 10⟩, ⟨24, 12 / 10⟩, ⟨25, 15 / 10⟩,
       ⟨26, 18 / 10⟩, ⟨27, 21 / 10⟩, ⟨28, 24 / 10⟩, ⟨29, 27 / 10⟩, ⟨30, 30 / 10⟩] := by
  have s1 : (List.range 10).map (fun i : Nat => produceSample 1 (i : Int)) =
      [⟨11, 2 / 10⟩, ⟨12, 4 / 10⟩, ⟨13, 6 / 10⟩, ⟨14, 8 / 10⟩, ⟨15, 10 / 10⟩,
       ⟨16, 12 / 10⟩, ⟨17, 14 / 10⟩, ⟨18, 16 / 10⟩, ⟨19, 18 / 10⟩, ⟨20, 20 / 10⟩] := by
    with_unfolding_all decide
  have s2 : (List.range 10).map (fun i : Nat => produceSample 2 (i : Int)) =
      [⟨21, 3 / 10⟩, ⟨22, 6 / 10⟩, ⟨23, 9 / 10⟩, ⟨24, 12 / 10⟩, ⟨25, 15 / 10⟩,
       ⟨26, 18 / 10⟩, ⟨27, 21 / 10⟩, ⟨28, 24 / 10⟩, ⟨29, 27 / 10⟩, ⟨30, 30 / 10⟩] := by
    with_unfolding_all decide
  have e1 : mainProducer1 queue1
      = pushAll queue1 ((List.range 10).map (fun i : Nat => produceSample 1 (i : Int))) := by
    unfold mainProducer1 produceData pushAll
    rw [List.foldl_map]
  have e2 : mainProducer2 queue2
      = pushAll queue2 ((List.range 10).map (fun i : Nat => produceSample 2 (i : Int))) := by
    unfold mainProducer2 produceData pushAll
    rw [List.foldl_map]
  rw [s1] at e1
  rw [s2] at e2
  refine ⟨e1, e2, ?_, ?_⟩
  · rw [e1, pushAll_queue]
  · rw [e2, pushAll_queue]

/-- C9: if one iteration prints a sample, its reliability is greater than or
equal to the reliability of every sample that was resident in queue1 or in
queue2 when the iteration started. -/
theorem emitted_is_most_reliable (s : Concentrator) (source : Nat) (x : DataSample)
    (h : (loopBody s).out = s.out ++ [Line.processing source x]) :
    ∀ y, y ∈ s.queue1.queue ∨ y ∈ s.queue2.queue → x.reliability ≥ y.reliability := by
  rw [loopBody_out, List.append_cancel_left_eq, iterationLine] at h
  intro y hy
  cases hq1 : s.queue1.queue with
  | nil =>
    cases hq2 : s.queue2.queue with
    | nil =>
      rw [pop_nil _ hq1, pop_nil _ hq2] at h
      simp [selectLine] at h
    | cons b bs =>
      rw [pop_nil _ hq1, pop_cons _ b bs hq2] at h
      simp only [selectLine, Option.toList, List.cons.injEq, Line.processing.injEq,
        and_true] at h
      rw [hq1, hq2] at hy
      rcases hy with hy | hy
      · simp at hy
      · rw [← h.2]
        exact pqTop_ge b bs y hy
  | cons a as =>
    cases hq2 : s.queue2.queue with
    | nil =>
      rw [pop_cons _ a as hq1, pop_nil _ hq2] at h
      simp only [selectLine, Option.toList, List.cons.injEq, Line.processing.injEq,
        and_true] at h
      rw [hq1, hq2] at hy
      rcases hy with hy | hy
      · rw [← h.2]
        exact pqTop_ge a as y hy
      · simp at hy
    | cons b bs =>
      rw [pop_cons _ a as hq1, pop_cons _ b bs hq2] at h
      rw [hq1, hq2] at hy
      simp only [selectLine] at h
      split at h
      · rename_i hge
        simp only [Option.toList, List.cons.injEq, Line.processing.injEq, and_true] at h
        rw [← h.2]
        rcases hy with hy | hy
        · exact pqTop_ge a as y hy
        · exact le_trans (pqTop_ge b bs y hy) hge
      · rename_i hge
        simp only [Option.toList, List.cons.injEq, Line.processing.injEq, and_true] at h
        rw [← h.2]
        rcases hy with hy | hy
        · exact le_trans (pqTop_ge a as y hy) (le_of_lt (not_le.1 hge))
        · exact pqTop_ge b bs y hy

/-- Witness for C9: queue1 holds 0.5 and 0.7, queue2 holds 0.6. -/
theorem emitted_is_most_reliable_witness :
    (loopBody ⟨⟨[⟨1, 1 / 2⟩, ⟨2, 7 / 10⟩]⟩, ⟨[⟨3, 6 / 10⟩]⟩, []⟩).out
      = [] ++ [Line.processing 1 ⟨2, 7 / 10⟩] ∧
    ((⟨2, 7 / 10⟩ : DataSample).reliability ≥ (⟨3, 6 / 10⟩ : DataSample).reliability) :=
  ⟨by with_unfolding_all decide,
   emitted_is_most_reliable ⟨⟨[⟨1, 1 / 2⟩, ⟨2, 7 / 10⟩]⟩, ⟨[⟨3, 6 / 10⟩]⟩, []⟩ 1 ⟨2, 7 / 10⟩
    (by with_unfolding_all decide) ⟨3, 6 / 10⟩ (Or.inr (List.mem_singleton.2 rfl))⟩

/-- C10 (stop transition): the flag is read before every iteration.  When it
reads running n times and then stopped, exactly n iterations run; at the
stopped reading no queue is popped and no sample is printed, exactly one
gracefully stopped line is printed, and the function returns whatever the
flag would read afterwards.  While every reading is running the function has
not returned and has printed no gracefully stopped line. -/
theorem stop_transition (n : Nat) (rest : List Bool) (s : Concentrator) :
    dataConcentrator (List.replicate n true ++ false :: rest) s
      = ({ queue1 := (loopBody^[n] s).queue1
           queue2 := (loopBody^[n] s).queue2
           out := (loopBody^[n] s).out ++ [Line.stopped] }, true) ∧
    stoppedLines (dataConcentrator (List.replicate n true ++ false :: rest) s).1.out
      = stoppedLines s.out + 1 ∧
    processingLines (dataConcentrator (List.replicate n true ++ false :: rest) s).1.out
      = processingLines (loopBody^[n] s).out ∧
    dataConcentrator (List.replicate n true) s = (loopBody^[n] s, false) ∧
    stoppedLines (dataConcentrator (List.replicate n true) s).1.out = stoppedLines s.out := by
  refine ⟨dataConcentrator_stop n rest s, ?_, ?_, dataConcentrator_running n s, ?_⟩
  · rw [dataConcentrator_stop, stoppedLines_append, iterate_stoppedLines]
    rfl
  · rw [dataConcentrator_stop, processingLines_append]
    rfl
  · rw [dataConcentrator_running, iterate_stoppedLines]

/-! ## Lemmas on the producer -/

theorem wrap32_of_range (n : Int) (h1 : -2147483648 ≤ n) (h2 : n ≤ 2147483647) :
    wrap32 n = n := by
  unfold wrap32
  omega

theorem produceData_eq_pushAll (queue : ThreadSafeQueue) (threadId : Int) :
    produceData queue threadId = pushAll queue (produceDataItems threadId) := by
  unfold produceData pushAll produceDataItems
  rw [List.foldl_map]

theorem produceSample_value (t i : Int) (hi0 : 0 ≤ i) (hi : i < 10)
    (h1 : -2147483648 ≤ t * 10) (h2 : t * 10 + 10 ≤ 2147483647) :
    (produceSample t i).value = 10 * t + (i + 1) := by
  simp only [produceSample, add32, mul32]
  rw [wrap32_of_range (t * 10) h1 (by omega), wrap32_of_range (i + 1) (by omega) (by omega),
    wrap32_of_range (i + 1 + t * 10) (by omega) (by omega)]
  omega

theorem produceSample_reliability (t i : Int) (hi0 : 0 ≤ i) (hi : i < 10)
    (h1 : 0 ≤ t) (h2 : (t + 1) * 10 ≤ 2147483647) :
    (produceSample t i).reliability = (((t + 1) * (i + 1) : Int) : ℚ) / 10 := by
  have hprod : (t + 1) * (i + 1) ≤ (t + 1) * 10 :=
    Int.mul_le_mul_of_nonneg_left (by omega) (by omega)
  have hpos : 0 ≤ (t + 1) * (i + 1) := Int.mul_nonneg (by omega) (by omega)
  simp only [produceSample, add32, mul32]
  rw [wrap32_of_range (t + 1) (by omega) (by omega),
    wrap32_of_range (i + 1) (by omega) (by omega),
    wrap32_of_range ((t + 1) * (i + 1)) (by omega) (by omega)]

theorem mem_produceDataItems (t : Int) (a : DataSample) (h : a ∈ produceDataItems t) :
    ∃ i : Int, 0 ≤ i ∧ i < 10 ∧ a = produceSample t i := by
  unfold produceDataItems at h
  rw [List.mem_map] at h
  obtain ⟨k, hk, rfl⟩ := h
  rw [List.mem_range] at hk
  exact ⟨(k : Int), by omega, by omega, rfl⟩

theorem produceDataItems_eq (t : Int) :
    produceDataItems t =
      [produceSample t 0, produceSample t 1, produceSample t 2, produceSample t 3,
       produceSample t 4, produceSample t 5, produceSample t 6, produceSample t 7,
       produceSample t 8, produceSample t 9] := rfl

theorem produceSample_value_lt (t i j : Int) (hi0 : 0 ≤ i) (hij : i < j) (hj : j < 10)
    (h1 : -2147483648 ≤ t * 10) (h2 : t * 10 + 10 ≤ 2147483647) :
    (produceSample t i).value < (produceSample t j).value := by
  rw [produceSample_value t i hi0 (by omega) h1 h2,
    produceSample_value t j (by omega) hj h1 h2]
  omega

theorem produceSample_reliability_lt (t i j : Int) (hi0 : 0 ≤ i) (hij : i < j) (hj : j < 10)
    (h1 : 0 ≤ t) (h2 : (t + 1) * 10 ≤ 2147483647) :
    (produceSample t i).reliability < (produceSample t j).reliability := by
  rw [produceSample_reliability t i hi0 (by omega) h1 h2,
    produceSample_reliability t j (by omega) hj h1 h2]
  have h : (t + 1) * (i + 1) < (t + 1) * (j + 1) :=
    Int.mul_lt_mul_of_pos_left (by omega) (by omega)
  have hq : (((t + 1) * (i + 1) : Int) : ℚ) < (((t + 1) * (j + 1) : Int) : ℚ) := by
    exact_mod_cast h
  linarith

theorem pairwise_range_map {α : Type} (f : Nat → α) (R : α → α → Prop) (n : Nat)
    (h : ∀ i j, i < j → j < n → R (f i) (f j)) :
    List.Pairwise R ((List.range n).map f) := by
  rw [List.pairwise_map]
  exact List.Pairwise.imp_of_mem
    (fun {a b} _ hb hab => h a b hab (List.mem_range.1 hb))
    (List.pairwise_lt_range n)

/-! ## produceData: the claims -/

/-- C12: for every producer identifier t for which the value expression does
not overflow an int, produceData pushes exactly 10 samples, the k-th of them
(k = 1..10) has value 10*t + k, the values pushed are strictly increasing,
and a producer with another such identifier u never pushes a value that this
one pushes. -/
theorem producer_values (queue : ThreadSafeQueue) (t u : Int)
    (ht1 : -2147483648 ≤ t * 10) (ht2 : t * 10 + 10 ≤ 2147483647)
    (hu1 : -2147483648 ≤ u * 10) (hu2 : u * 10 + 10 ≤ 2147483647) :
    produceData queue t = pushAll queue (produceDataItems t) ∧
    (produceData queue t).queue = queue.queue ++ produceDataItems t ∧
    (produceData queue t).size = queue.size + 10 ∧
    (produceDataItems t).map DataSample.value =
      [10 * t + 1, 10 * t + 2, 10 * t + 3, 10 * t + 4, 10 * t + 5,
       10 * t + 6, 10 * t + 7, 10 * t + 8, 10 * t + 9, 10 * t + 10] ∧
    List.Pairwise (fun v w => v < w) ((produceDataItems t).map DataSample.value) ∧
    (t ≠ u → ∀ a ∈ produceDataItems t, ∀ b ∈ produceDataItems u, a.value ≠ b.value) := by
  have hq : (produceData queue t).queue = queue.queue ++ produceDataItems t := by
    rw [produceData_eq_pushAll, pushAll_queue]
  refine ⟨produceData_eq_pushAll queue t, hq, ?_, ?_, ?_, ?_⟩
  · rw [ThreadSafeQueue.size, hq, List.length_append]
    rfl
  · rw [produceDataItems_eq]
    simp only [List.map]
    rw [produceSample_value t 0 (by omega) (by omega) ht1 ht2,
      produceSample_value t 1 (by omega) (by omega) ht1 ht2,
      produceSample_value t 2 (by omega) (by omega) ht1 ht2,
      produceSample_value t 3 (by omega) (by omega) ht1 ht2,
      produceSample_value t 4 (by omega) (by omega) ht1 ht2,
      produceSample_value t 5 (by omega) (by omega) ht1 ht2,
      produceSample_value t 6 (by omega) (by omega) ht1 ht2,
      produceSample_value t 7 (by omega) (by omega) ht1 ht2,
      produceSample_value t 8 (by omega) (by omega) ht1 ht2,
      produceSample_value t 9 (by omega) (by omega) ht1 ht2]
    norm_num
  · unfold produceDataItems
    rw [List.map_map]
    apply pairwise_range_map
    intro i j hij hj
    have h := produceSample_value_lt t i j (by omega) (by omega) (by omega) ht1 ht2
    rw [Function.comp_apply, Function.comp_apply]
    exact h
  · intro htu a ha b hb
    obtain ⟨i, hi0, hi, rfl⟩ := mem_produceDataItems t a ha
    obtain ⟨j, hj0, hj, rfl⟩ := mem_produceDataItems u b hb
    rw [produceSample_value t i hi0 hi ht1 ht2, produceSample_value u j hj0 hj hu1 hu2]
    omega

/-- Witness for C12: the producers with identifiers 1 and 2. -/
theorem producer_values_witness :
    (-2147483648 : Int) ≤ 1 * 10 ∧ (1 : Int) * 10 + 10 ≤ 2147483647 ∧
    (produceDataItems 1).map DataSample.value =
      [10 * 1 + 1, 10 * 1 + 2, 10 * 1 + 3, 10 * 1 + 4, 10 * 1 + 5,
       10 * 1 + 6, 10 * 1 + 7, 10 * 1 + 8, 10 * 1 + 9, 10 * 1 + 10] :=
  ⟨by decide, by decide,
   (producer_values ThreadSafeQueue.fresh 1 2 (by decide) (by decide) (by decide)
    (by decide)).2.2.2.1⟩

/-- Counterexample to C15: for the producer identifier t = 214748364, which
is at least 0, the product (t + 1) * 10 does not fit an int, and the tenth
sample pushed has reliability -214748364.6, which is not (t + 1) * 10 / 10
and is less than the reliability 193273528.5 of the ninth sample. -/
theorem producer_reliability_counterexample :
    (0 : Int) ≤ 214748364 ∧
    (produceDataItems 214748364).map DataSample.reliability =
      [214748365 / 10, 429496730 / 10, 644245095 / 10, 858993460 / 10, 1073741825 / 10,
       1288490190 / 10, 1503238555 / 10, 1717986920 / 10, 1932735285 / 10,
       -2147483646 / 10] ∧
    (-2147483646 / 10 : ℚ) ≠ (214748364 + 1) * 10 / 10 ∧
    (-2147483646 / 10 : ℚ) < 1932735285 / 10 := by
  refine ⟨by decide, ?_, by norm_num, by norm_num⟩
  rw [produceDataItems_eq]
  simp only [List.map, produceSample, add32, mul32, wrap32]
  norm_num

/-- C15 as amended: for every producer identifier t >= 0 for which
(t + 1) * 10 fits an int (t at most 214748363), the k-th sample pushed by
produceData (k = 1..10) has reliability exactly (t+1)*k/10, so reliabilities
strictly increase with k; consequently the sample most recently pushed is a
maximum-reliability sample among those that producer has pushed. -/
theorem producer_reliability (queue : ThreadSafeQueue) (t : Int)
    (h0 : 0 ≤ t) (h1 : (t + 1) * 10 ≤ 2147483647) :
    (produceData queue t).queue = queue.queue ++ produceDataItems t ∧
    (produceDataItems t).map DataSample.reliability =
      (List.range 10).map (fun (i : Nat) => ((t : ℚ) + 1) * ((i : ℚ) + 1) / 10) ∧
    List.Pairwise (fun r s => r < s) ((produceDataItems t).map DataSample.reliability) ∧
    (∀ i j : Nat, i ≤ j → j < 10 →
      (produceSample t (i : Int)).reliability ≤ (produceSample t (j : Int)).reliability) := by
  refine ⟨by rw [produceData_eq_pushAll, pushAll_queue], ?_, ?_, ?_⟩
  · unfold produceDataItems
    rw [List.map_map]
    apply List.map_congr_left
    intro i hi
    rw [List.mem_range] at hi
    rw [Function.comp_apply,
      produceSample_reliability t (i : Int) (by omega) (by omega) h0 h1]
    push_cast
    ring
  · unfold produceDataItems
    rw [List.map_map]
    apply pairwise_range_map
    intro i j hij hj
    have h := produceSample_reliability_lt t i j (by omega) (by omega) (by omega) h0 h1
    rw [Function.comp_apply, Function.comp_apply]
    exact h
  · intro i j hij hj
    rcases Nat.eq_or_lt_of_le hij with rfl | hlt
    · exact le_refl _
    · exact le_of_lt
        (produceSample_reliability_lt t i j (by omega) (by omega) (by omega) h0 h1)

/-- Witness for C15 as amended: the producer with identifier 1. -/
theorem producer_reliability_witness :
    (0 : Int) ≤ 1 ∧ ((1 : Int) + 1) * 10 ≤ 2147483647 ∧
    (produceSample 1 (0 : Nat)).reliability ≤ (produceSample 1 (9 : Nat)).reliability :=
  ⟨by decide, by decide,
   (producer_reliability ThreadSafeQueue.fresh 1 (by decide) (by decide)).2.2.2 0 9
    (by decide) (by decide)⟩

/-! ## Emptiness, drain order and the effect of one iteration -/

theorem runQueueOps_count (ops : List QueueOp) :
    (runQueueOps ops).q.queue.length + (runQueueOps ops).returned.length
      = (ops.filter QueueOp.isPush).length := by
  have h := (runQueueOps_balanced ops).length_eq
  have h2 := foldl_pushed_length ops ⟨ThreadSafeQueue.fresh, [], []⟩
  unfold runQueueOps at h ⊢
  simp only [List.length_append, List.length_nil, Nat.zero_add] at h h2
  rw [← h2, ← h]

theorem popUntilNone_spec (fuel : Nat) (q : ThreadSafeQueue) (h : q.size < fuel) :
    ∃ popped, popUntilNone fuel q = some popped ∧ List.Perm popped q.queue ∧
      List.Pairwise (fun a b : DataSample => a.reliability ≥ b.reliability) popped := by
  induction fuel generalizing q with
  | zero => omega
  | succ fuel ih =>
    cases hq : q.queue with
    | nil =>
      refine ⟨[], ?_, List.Perm.refl _, List.Pairwise.nil⟩
      unfold popUntilNone
      rw [pop_nil q hq]
    | cons x xs =>
      have hmem := pqTop_mem x xs
      have hsize : (⟨pqPop x xs⟩ : ThreadSafeQueue).size < fuel := by
        simp only [ThreadSafeQueue.size, pqPop, List.length_erase_of_mem hmem]
        simp only [ThreadSafeQueue.size, hq, List.length_cons] at h
        simp only [List.length_cons]
        omega
      obtain ⟨popped, hp, hperm, hsorted⟩ := ih ⟨pqPop x xs⟩ hsize
      refine ⟨pqTop x xs :: popped, ?_, ?_, ?_⟩
      · unfold popUntilNone
        rw [pop_cons q x xs hq]
        simp only [hp, Option.map]
      · exact (List.Perm.cons _ hperm).trans (List.perm_cons_erase hmem).symm
      · refine List.Pairwise.cons ?_ hsorted
        intro y hy
        exact pqTop_ge x xs y (List.mem_of_mem_erase ((hperm.mem_iff).1 hy))

theorem pop_effect (q : ThreadSafeQueue) :
    if q.empty then q.pop = (none, q)
    else ∃ x ∈ q.queue, (∀ y ∈ q.queue, y.reliability ≤ x.reliability) ∧
      q.pop = (some x, ⟨q.queue.erase x⟩) ∧ q.pop.2.size + 1 = q.size := by
  cases hq : q.queue with
  | nil =>
    have he : q.empty = true := (empty_iff q).2 hq
    rw [if_pos he]
    exact pop_nil q hq
  | cons x xs =>
    have he : ¬ (q.empty = true) := by
      rw [empty_iff, hq]
      exact List.cons_ne_nil x xs
    rw [if_neg he]
    have hmem := pqTop_mem x xs
    refine ⟨pqTop x xs, hmem, pqTop_ge x xs, ?_, ?_⟩
    · rw [pop_cons q x xs hq]
      rfl
    · rw [pop_cons q x xs hq]
      simp only [ThreadSafeQueue.size, pqPop, List.length_erase_of_mem hmem, hq,
        List.length_cons]
      omega

/-- C13: empty() returns true if and only if the queue holds no item; in the
state reached by any run of calls from an empty queue that is the case if and
only if the number of push calls equals the number of pops that returned an
item; and a call of empty leaves the queue and the whole run as they were. -/
theorem empty_snapshot (ops : List QueueOp) (q : ThreadSafeQueue) (r : QueueRun) :
    (q.empty = true ↔ q.queue = []) ∧
    (q.empty = true ↔ q.size = 0) ∧
    ((runQueueOps ops).q.empty = true ↔
      (ops.filter QueueOp.isPush).length = (runQueueOps ops).returned.length) ∧
    (r.step QueueOp.empty).q = r.q ∧ r.step QueueOp.empty = r := by
  refine ⟨empty_iff q, ?_, ?_, rfl, rfl⟩
  · rw [empty_iff, ThreadSafeQueue.size, List.length_eq_zero]
  · have h := runQueueOps_count ops
    rw [empty_iff, ← List.length_eq_zero]
    omega

/-- C14 (drain order): when a finite list of samples is pushed to an
initially empty queue and the queue is then popped until pop returns no item
(more calls of pop being allowed than samples were pushed), the drain ends,
exactly as many samples are popped as were pushed, the popped sequence is a
permutation of the pushed list, and its reliabilities are in non-increasing
order. -/
theorem drain_order (items : List DataSample) (fuel : Nat) (h : items.length < fuel) :
    ∃ popped, popUntilNone fuel (pushAll ThreadSafeQueue.fresh items) = some popped ∧
      popped.length = items.length ∧ List.Perm popped items ∧
      List.Pairwise (fun r s : ℚ => r ≥ s) (popped.map DataSample.reliability) := by
  have hq : (pushAll ThreadSafeQueue.fresh items).queue = items := by
    rw [pushAll_queue]
    rfl
  have hsize : (pushAll ThreadSafeQueue.fresh items).size < fuel := by
    rw [ThreadSafeQueue.size, hq]
    exact h
  obtain ⟨popped, hp, hperm, hsorted⟩ := popUntilNone_spec fuel _ hsize
  rw [hq] at hperm
  refine ⟨popped, hp, hperm.length_eq, hperm, ?_⟩
  rw [List.pairwise_map]
  exact hsorted

/-- Witness for C14: three samples, two of them of equal reliability. -/
theorem drain_order_witness :
    ([⟨1, 1 / 2⟩, ⟨2, 7 / 10⟩, ⟨3, 7 / 10⟩] : List DataSample).length < 4 ∧
    popUntilNone 4 (pushAll ThreadSafeQueue.fresh [⟨1, 1 / 2⟩, ⟨2, 7 / 10⟩, ⟨3, 7 / 10⟩])
      = some [⟨2, 7 / 10⟩, ⟨3, 7 / 10⟩, ⟨1, 1 / 2⟩] ∧
    ∃ popped, popUntilNone 4
        (pushAll ThreadSafeQueue.fresh [⟨1, 1 / 2⟩, ⟨2, 7 / 10⟩, ⟨3, 7 / 10⟩]) = some popped ∧
      popped.length = ([⟨1, 1 / 2⟩, ⟨2, 7 / 10⟩, ⟨3, 7 / 10⟩] : List DataSample).length ∧
      List.Perm popped [⟨1, 1 / 2⟩, ⟨2, 7 / 10⟩, ⟨3, 7 / 10⟩] ∧
      List.Pairwise (fun r s : ℚ => r ≥ s) (popped.map DataSample.reliability) :=
  ⟨by decide, by with_unfolding_all decide,
   drain_order [⟨1, 1 / 2⟩, ⟨2, 7 / 10⟩, ⟨3, 7 / 10⟩] 4 (by decide)⟩

/-- C16: one execution of the loop body removes exactly one sample, one of
maximum reliability, from each queue that is non-empty when it starts,
leaves an empty queue as it was, and prints at most one line, a Processing
line; it prints exactly one if and only if at least one queue was
non-empty. -/
theorem iteration_effect (s : Concentrator) :
    (if s.queue1.empty then (loopBody s).queue1 = s.queue1
     else ∃ x ∈ s.queue1.queue, (∀ y ∈ s.queue1.queue, y.reliability ≤ x.reliability) ∧
      (loopBody s).queue1.queue = s.queue1.queue.erase x ∧
      (loopBody s).queue1.size + 1 = s.queue1.size) ∧
    (if s.queue2.empty then (loopBody s).queue2 = s.queue2
     else ∃ x ∈ s.queue2.queue, (∀ y ∈ s.queue2.queue, y.reliability ≤ x.reliability) ∧
      (loopBody s).queue2.queue = s.queue2.queue.erase x ∧
      (loopBody s).queue2.size + 1 = s.queue2.size) ∧
    (loopBody s).out = s.out ++ (iterationLine s).toList ∧
    (iterationLine s).toList.length ≤ 1 ∧
    (∀ l ∈ (iterationLine s).toList, l.isProcessing = true) ∧
    ((iterationLine s).toList.length = 1 ↔
      (s.queue1.empty = false ∨ s.queue2.empty = false)) := by
  have e1 : (loopBody s).queue1 = s.queue1.pop.2 := rfl
  have e2 : (loopBody s).queue2 = s.queue2.pop.2 := rfl
  have hlen : (iterationLine s).toList.length
      = if s.queue1.empty && s.queue2.empty then 0 else 1 := by
    rw [iterationLine, selectLine_length, pop_isSome, pop_isSome]
    cases s.queue1.empty <;> cases s.queue2.empty <;> rfl
  refine ⟨?_, ?_, loopBody_out s, ?_, ?_, ?_⟩
  · have h := pop_effect s.queue1
    rw [e1]
    split
    · rename_i he
      rw [if_pos he] at h
      rw [h]
    · rename_i he
      rw [if_neg he] at h
      obtain ⟨x, hx, hmax, hpop, hsize⟩ := h
      exact ⟨x, hx, hmax, by rw [hpop], hsize⟩
  · have h := pop_effect s.queue2
    rw [e2]
    split
    · rename_i he
      rw [if_pos he] at h
      rw [h]
    · rename_i he
      rw [if_neg he] at h
      obtain ⟨x, hx, hmax, hpop, hsize⟩ := h
      exact ⟨x, hx, hmax, by rw [hpop], hsize⟩
  · rw [hlen]
    split <;> omega
  · exact selectLine_isProcessing _ _
  · rw [hlen]
    cases s.queue1.empty <;> cases s.queue2.empty <;> simp

end DataConcentrator
